import Mathlib

/-!
Verification of the catch2 parallel test runner
(`src/catch2_parallel_runner.py`).

The development shallowly embeds the parts of `run_tests` and
`TestPrinter.print_result` that the specification talks about:

* the duration extraction performed at the top of `print_result`
  (a backward scan over the captured output lines);
* the repeat expansion of the discovered test catalog;
* the argument-validation / discovery / zero-match prelude of
  `run_tests`;
* the bounded dispatch-and-drain scheduling loop, embedded as a
  small-step transition relation over an explicit scheduler state;
* the final summary (failing list and process exit code).

Machine floats only ever hold decimal literals parsed by Python's
`float`, so durations are modelled as `Rat`.
-/

/-- A discovered test case: `TestCase(name, tags)` in the source.  The
`name_and_tag` rendering and the process handle are not part of the
value model; a run's exit status is supplied by an environment function
indexed by occurrence position. -/
structure TestCase where
  name : String
  tags : String
deriving DecidableEq, Repr

/-! ## Duration extraction (`TestPrinter.print_result`, lines 64-72)

```python
status = test_case.test_process.poll()
lines = test_case.test_process.stdout.readlines()
line = len(lines) - 1
duration = -1
while duration < 0 and line > 0:
    if "=====" in lines[line]:
        duration = float(lines[line - 1].split(" s:")[0])
    line -= 1
```
-/

/-- Model of `"=====" in s` for a line `s`: some position of `s` starts with five
consecutive `=` characters. -/
def containsSep : List Char → Bool
  | '=' :: '=' :: '=' :: '=' :: '=' :: _ => true
  | _ :: rest => containsSep rest
  | [] => false

/-- Model of `s.split(" s:")[0]`: the part of the line before the first
occurrence of the marker `" s:"` (the whole line when the marker is
absent). -/
def takeUntilMarker : List Char → List Char
  | ' ' :: 's' :: ':' :: _ => []
  | c :: rest => c :: takeUntilMarker rest
  | [] => []

/-- Whitespace characters stripped by Python's `float`. -/
def isPyWs (c : Char) : Bool :=
  c = ' ' || c = '\n' || c = '\t' || c = '\r'

/-- Strip leading and trailing whitespace. -/
def stripWs (l : List Char) : List Char :=
  ((l.dropWhile isPyWs).reverse.dropWhile isPyWs).reverse

/-- Numeric value of a digit string (caller checks all are digits). -/
def natOfDigits (l : List Char) : Nat :=
  l.foldl (fun a c => 10 * a + (c.toNat - 48)) 0

/-- Parse an unsigned decimal literal: digits with at most one decimal
point and at least one digit overall. -/
def parseUnsigned (l : List Char) : Option Rat :=
  if l.contains '.' then
    let ip := l.takeWhile (fun c => ¬ c = '.')
    let fp := (l.dropWhile (fun c => ¬ c = '.')).tail
    if ip.all Char.isDigit && fp.all Char.isDigit && !(fp.contains '.')
        && !(ip.isEmpty && fp.isEmpty) then
      some ((natOfDigits ip : Rat) + (natOfDigits fp : Rat) / ((10 : Rat) ^ fp.length))
    else
      none
  else
    if l.all Char.isDigit && !l.isEmpty then some (natOfDigits l : Rat) else none

/-- Model of Python's builtin `float(s)` restricted to decimal
literals: optional surrounding whitespace, optional sign, digits with at
most one decimal point and at least one digit.  `none` models the
`ValueError` raise.  (Exponents and `inf`/`nan`, never produced by the
catch2 duration line, are not modelled.) -/
def pyFloat (l : List Char) : Option Rat :=
  match stripWs l with
  | '-' :: rest => (parseUnsigned rest).map (fun q => -q)
  | '+' :: rest => parseUnsigned rest
  | rest => parseUnsigned rest

/-- One backward scan of the `while duration < 0 and line > 0` loop,
starting at index `i` with current `duration` value `dur` (only ever
called with `dur < 0`, mirroring the loop guard).  `Except.error ()`
models the uncaught `ValueError` from `float`. -/
def scanFrom (lines : List String) : Nat → Rat → Except Unit Rat
  | 0, dur => .ok dur
  | j + 1, dur =>
    if containsSep (lines.getD (j + 1) "").data then
      match pyFloat (takeUntilMarker (lines.getD j "").data) with
      | none => .error ()
      | some d => if d < 0 then scanFrom lines j d else .ok d
    else
      scanFrom lines j dur

/-- The duration extracted by `print_result` from the captured output
`lines` (`readlines()` output, newline terminators included): scan from
the last line down to index 1, looking for a separator line; when one is
found, `float` the part of the preceding line before `" s:"`. -/
def findDuration (lines : List String) : Except Unit Rat :=
  scanFrom lines (lines.length - 1) (-1)

/-- No line at an index `≥ 1` contains the separator substring (the
scan never examines index 0). -/
def noSepAfterHead (lines : List String) : Bool :=
  (lines.drop 1).all (fun s => !(containsSep s.data))

/-- All lines of a block lack the separator substring. -/
def noSepAll (lines : List String) : Bool :=
  lines.all (fun s => !(containsSep s.data))

/-! ## Repeat expansion (`run_tests`, lines 136-140)

```python
test_cases_repeat = []
for _ in range(repeat):
    for test_case in test_cases:
        test_cases_repeat.append(copy.deepcopy(test_case))
test_cases = test_cases_repeat
```
Each appended entry is a `deepcopy`, i.e. an independent occurrence; in
the value model the copies are the successive entries of the expanded
list.  `range(repeat)` is empty for `repeat ≤ 0`, hence the `Int.toNat`
at the use site. -/

/-- Expansion producing `n` sequential full copies of the catalog, in discovery order. -/
def repeatTests : Nat → List TestCase → List TestCase
  | 0, _ => []
  | n + 1, l => l ++ repeatTests n l

/-! ## Prelude of `run_tests` (lines 115-145)

```python
if quiet and verbose:
    sys.exit('Can not be both quiet and verbose at the same time.')
...
test_cases_xml = subprocess.run([test_exe, test_filter, '--list-tests', ...])
...  # parse, expand by repeat
if len(test_cases) == 0:
    sys.exit(f"No matching test cases for \x22{test_filter}\x22")
...  # scheduling loop (spawns processes)
```
`sys.exit(msg)` with a string argument prints `msg` and exits with
status 1.  The discovery invocation and the process spawns are recorded
as an effect trace so that "exits before discovery / before any spawn"
is expressible. -/

/-- Externally visible actions of the prelude: the discovery
invocation of the test binary, and the spawn of the test process for
the occurrence at a given position. -/
inductive Effect where
  | discover : Effect
  | spawn : Nat → Effect
deriving DecidableEq, Repr

/-- How the prelude ends: an early `sys.exit(msg)` (status 1), or
proceeding to the scheduling loop with the expanded run list. -/
inductive PreludeOut where
  | exitMsg : String → PreludeOut
  | proceed : List TestCase → PreludeOut
deriving DecidableEq, Repr

/-- CLI options consumed before the scheduling loop. -/
structure Config where
  testFilter : String
  verbose : Bool
  quiet : Bool
  rep : Int
deriving Repr

/-- The prelude of `run_tests`, from the quiet/verbose validation to
the zero-match check, given the catalog the discovery invocation would
report.  Returns the effect trace performed and the outcome. -/
def preludePhase (cfg : Config) (discovered : List TestCase) :
    List Effect × PreludeOut :=
  if cfg.quiet && cfg.verbose then
    ([], .exitMsg "Can not be both quiet and verbose at the same time.")
  else
    let expanded := repeatTests cfg.rep.toNat discovered
    if expanded.length = 0 then
      ([.discover], .exitMsg ("No matching test cases for \"" ++ cfg.testFilter ++ "\""))
    else
      ([.discover], .proceed expanded)

/-- Process exit status of a prelude outcome: `sys.exit(str)` exits
with status 1; `none` when the session continues. -/
def preludeExitCode : PreludeOut → Option Nat
  | .exitMsg _ => some 1
  | .proceed _ => none

/-! ## The scheduling loop (`run_tests`, lines 148-174)

```python
running_tests = []
for test_case in test_cases:
    while len(running_tests) == max_jobs:
        for running_test in running_tests:
            status = running_test.test_process.poll()
            if status != None:
                test_printer.print_result(running_test)
                running_tests.remove(running_test)
                break
        if len(running_tests) == max_jobs:
            ...sleep...
    test_case.test_process = subprocess.Popen(...)
    running_tests.append(test_case)
while len(running_tests) > 0:
    ...same poll/print/remove...
```
Occurrences are identified by their position in the expanded list;
`exitF i` is the exit status the process of occurrence `i` eventually
reports.  Which running process `poll()` first observes as completed is
scheduler nondeterminism, so harvesting is a transition parametrised by
the position `k` inside `running_tests`. -/

/-- Scheduler state: `nextIdx` is the position of the next occurrence
the `for` loop would spawn, `running` the positions currently in
`running_tests` in append order, `harvested` the positions already
passed to `print_result` in harvest order, and the `TestPrinter`
counters. -/
structure SchedState where
  nextIdx : Nat
  running : List Nat
  harvested : List Nat
  okCount : Nat
  failCount : Nat
  testCounter : Nat
deriving DecidableEq, Repr

/-- State at the start of the loop: nothing spawned, counters zero. -/
def initSched : SchedState :=
  { nextIdx := 0, running := [], harvested := [], okCount := 0
    failCount := 0, testCounter := 0 }

/-- Effect of `print_result` plus `running_tests.remove` on the
state, when the member at position `k` of `running_tests` is observed
completed: bump `test_counter`, bump `ok_count` when its exit status is
0 and `failing_count` otherwise, drop it from the running list. -/
def harvestStep (exitF : Nat → Int) (s : SchedState) (k : Nat) : SchedState :=
  let i := s.running.getD k 0
  { s with
    running := s.running.eraseIdx k
    harvested := s.harvested ++ [i]
    okCount := if exitF i = 0 then s.okCount + 1 else s.okCount
    failCount := if exitF i = 0 then s.failCount else s.failCount + 1
    testCounter := s.testCounter + 1 }

/-- One observable transition of the scheduling loop with `total`
occurrences to run under job limit `maxJobs`:

* `harvestFull`: inside the dispatch `while len(running_tests) ==
  max_jobs` loop, a completed member is printed and removed;
* `spawn`: the `while` guard is false, so the `for` body spawns the
  next occurrence and appends it;
* `harvestDrain`: all occurrences are spawned (`for` loop exhausted)
  and the drain loop harvests a completed member. -/
inductive Step (maxJobs total : Nat) (exitF : Nat → Int) :
    SchedState → SchedState → Prop where
  | harvestFull (s : SchedState) (k : Nat) (hq : s.nextIdx < total)
      (hfull : s.running.length = maxJobs) (hk : k < s.running.length) :
      Step maxJobs total exitF s (harvestStep exitF s k)
  | spawn (s : SchedState) (hq : s.nextIdx < total)
      (hfree : ¬ s.running.length = maxJobs) :
      Step maxJobs total exitF s
        { s with nextIdx := s.nextIdx + 1, running := s.running ++ [s.nextIdx] }
  | harvestDrain (s : SchedState) (k : Nat) (hq : s.nextIdx = total)
      (hk : k < s.running.length) :
      Step maxJobs total exitF s (harvestStep exitF s k)

/-- States the scheduling loop can reach from its start. -/
inductive Reachable (maxJobs total : Nat) (exitF : Nat → Int) :
    SchedState → Prop where
  | init : Reachable maxJobs total exitF initSched
  | step {s t : SchedState} : Reachable maxJobs total exitF s →
      Step maxJobs total exitF s t → Reachable maxJobs total exitF t

/-- The loop has finished: every occurrence spawned and every running
process harvested. -/
def Finished (total : Nat) (s : SchedState) : Prop :=
  s.nextIdx = total ∧ s.running = []

/-! ## Final summary (`run_tests`, lines 184-194)

```python
if test_printer.failing_count == 0:
    test_printer.log("All tests ok")
else:
    test_printer.log("Failing test cases:")
    for test_case in test_cases:
        if test_case.test_process.poll() != 0:
            test_printer.log(f"\x22{test_case.name}\x22 {test_case.tags}")
...
sys.exit(test_printer.failing_count > 0)
```
-/

/-- The failing-list loop, iterating over the expanded list from
occurrence position `i`: keep each test case whose process exit status
is non-zero, in list (discovery + repeat) order. -/
def failingListFrom (exitF : Nat → Int) : Nat → List TestCase → List TestCase
  | _, [] => []
  | i, tc :: rest =>
    if exitF i = 0 then failingListFrom exitF (i + 1) rest
    else tc :: failingListFrom exitF (i + 1) rest

/-- The failing identifiers printed at session end. -/
def failingListPrinted (tests : List TestCase) (exitF : Nat → Int) : List TestCase :=
  failingListFrom exitF 0 tests

/-- Process exit status of the session: `sys.exit(failing_count > 0)`
exits with 1 when the Python bool is `True` and 0 when it is
`False`. -/
def sessionExitCode (failCount : Nat) : Nat :=
  if 0 < failCount then 1 else 0

/-! ## Concrete environments used by the closed witnesses -/

/-- Exit environment where every run passes. -/
def exitZero : Nat → Int := fun _ => 0

/-- Exit environment where the first occurrence passes and all later
ones fail. -/
def exitSecondFails : Nat → Int := fun i => if i = 0 then 0 else 1

/-- The state of a finished two-run session under `exitSecondFails`
with job limit 1. -/
def doneTwoState : SchedState :=
  { nextIdx := 2, running := [], harvested := [0, 1], okCount := 1
    failCount := 1, testCounter := 2 }

/-! ## Scheduler invariants -/

/-- Inductive invariant of the scheduling loop: the running set is
bounded by the job limit, the spawn cursor is bounded by the run count,
the harvested and running positions together are exactly the spawned
positions, and the printer counters count the harvested runs by exit
status. -/

def SchedInv (maxJobs total : Nat) (exitF : Nat → Int) (s : SchedState) : Prop :=
  s.running.length ≤ maxJobs ∧
  s.nextIdx ≤ total ∧
  (s.harvested ++ s.running).Perm (List.range s.nextIdx) ∧
  s.okCount = s.harvested.countP (fun i => exitF i == 0) ∧
  s.failCount = s.harvested.countP (fun i => !(exitF i == 0)) ∧
  s.testCounter = s.harvested.length

theorem perm_getD_cons_eraseIdx (l : List Nat) (k : Nat) (hk : k < l.length) :
    l.Perm (l.getD k 0 :: l.eraseIdx k) := by
  have h1 : l.eraseIdx k = l.take k ++ l.drop (k + 1) :=
    List.eraseIdx_eq_take_drop_succ l k
  have h2 : l.drop k = l[k] :: l.drop (k + 1) := List.drop_eq_getElem_cons hk
  have h3 : l = l.take k ++ l[k] :: l.drop (k + 1) := by
    conv_lhs => rw [(l.take_append_drop k).symm, h2]
  have h4 := @List.perm_middle Nat (l.get ⟨k, hk⟩) (l.take k) (l.drop (k + 1))
  rw [List.get_eq_getElem] at h4
  rw [← h3] at h4
  rw [List.getD_eq_getElem l 0 hk, h1]
  exact h4

theorem schedInv_harvest {maxJobs total : Nat} {exitF : Nat → Int} {s : SchedState}
    (k : Nat) (hk : k < s.running.length)
    (hnext : s.nextIdx ≤ total)
    (hinv : SchedInv maxJobs total exitF s) :
    SchedInv maxJobs total exitF (harvestStep exitF s k) := by
  obtain ⟨hlen, _, hperm, hok, hfail, hctr⟩ := hinv
  refine ⟨?_, hnext, ?_, ?_, ?_, ?_⟩
  · exact (List.length_eraseIdx_le s.running k).trans hlen
  · have hr : s.running.Perm (s.running.getD k 0 :: s.running.eraseIdx k) :=
      perm_getD_cons_eraseIdx s.running k hk
    have h5 : ((s.harvested ++ [s.running.getD k 0]) ++ s.running.eraseIdx k).Perm
        (s.harvested ++ s.running) := by
      rw [List.append_assoc]
      exact (hr.append_left s.harvested).symm
    exact h5.trans hperm
  · show (if exitF (s.running.getD k 0) = 0 then s.okCount + 1 else s.okCount)
        = List.countP (fun i => exitF i == 0) (s.harvested ++ [s.running.getD k 0])
    rw [List.countP_append, hok]
    by_cases h : exitF (s.running.getD k 0) = 0
    · rw [if_pos h]
      rw [List.getD_eq_getElem?_getD] at h
      simp [List.countP_cons, h]
    · rw [if_neg h]
      rw [List.getD_eq_getElem?_getD] at h
      simp [List.countP_cons, h]
  · show (if exitF (s.running.getD k 0) = 0 then s.failCount else s.failCount + 1)
        = List.countP (fun i => !(exitF i == 0)) (s.harvested ++ [s.running.getD k 0])
    rw [List.countP_append, hfail]
    by_cases h : exitF (s.running.getD k 0) = 0
    · rw [if_pos h]
      rw [List.getD_eq_getElem?_getD] at h
      simp [List.countP_cons, h]
    · rw [if_neg h]
      rw [List.getD_eq_getElem?_getD] at h
      simp [List.countP_cons, h]
  · show s.testCounter + 1 = (s.harvested ++ [s.running.getD k 0]).length
    simp [hctr]

theorem schedInv_step {maxJobs total : Nat} {exitF : Nat → Int} {s t : SchedState}
    (hstep : Step maxJobs total exitF s t) (hinv : SchedInv maxJobs total exitF s) :
    SchedInv maxJobs total exitF t := by
  cases hstep with
  | spawn hq hfree =>
    obtain ⟨hlen, _, hperm, hok, hfail, hctr⟩ := hinv
    refine ⟨?_, hq, ?_, hok, hfail, hctr⟩
    · simpa using Nat.succ_le_of_lt (Nat.lt_of_le_of_ne hlen hfree)
    · show ((s.harvested ++ (s.running ++ [s.nextIdx]))).Perm (List.range (s.nextIdx + 1))
      rw [List.range_succ, ← List.append_assoc]
      exact hperm.append_right _
  | harvestFull k hq hfull hk => exact schedInv_harvest k hk (Nat.le_of_lt hq) hinv
  | harvestDrain k hq hk => exact schedInv_harvest k hk (Nat.le_of_eq hq) hinv

theorem schedInv_init (maxJobs total : Nat) (exitF : Nat → Int) :
    SchedInv maxJobs total exitF initSched := by
  refine ⟨by simp [initSched], by simp [initSched], ?_, by simp [initSched], by simp [initSched], by simp [initSched]⟩
  simp [initSched]

theorem reachable_schedInv {maxJobs total : Nat} {exitF : Nat → Int} {s : SchedState}
    (h : Reachable maxJobs total exitF s) : SchedInv maxJobs total exitF s := by
  induction h with
  | init => exact schedInv_init maxJobs total exitF
  | step _ hstep ih => exact schedInv_step hstep ih

/-! ## Terminal-state consequences and the final failing list -/

theorem countP_self_add_not (p : Nat → Bool) (l : List Nat) :
    l.countP p + l.countP (fun a => !(p a)) = l.length := by
  induction l with
  | nil => simp
  | cons a l ih =>
    rw [List.countP_cons, List.countP_cons, List.length_cons, ← ih]
    by_cases h : p a <;> simp [h] <;> omega

theorem finished_harvested_perm {maxJobs total : Nat} {exitF : Nat → Int}
    {s : SchedState} (h : Reachable maxJobs total exitF s)
    (hfin : Finished total s) : s.harvested.Perm (List.range total) := by
  obtain ⟨_, _, hperm, _, _, _⟩ := reachable_schedInv h
  obtain ⟨hnext, hrun⟩ := hfin
  rw [hrun, List.append_nil, hnext] at hperm
  exact hperm

theorem finished_okCount {maxJobs total : Nat} {exitF : Nat → Int}
    {s : SchedState} (h : Reachable maxJobs total exitF s)
    (hfin : Finished total s) :
    s.okCount = (List.range total).countP (fun i => exitF i == 0) := by
  obtain ⟨_, _, _, hok, _, _⟩ := reachable_schedInv h
  rw [hok, (finished_harvested_perm h hfin).countP_eq]

theorem finished_failCount {maxJobs total : Nat} {exitF : Nat → Int}
    {s : SchedState} (h : Reachable maxJobs total exitF s)
    (hfin : Finished total s) :
    s.failCount = (List.range total).countP (fun i => !(exitF i == 0)) := by
  obtain ⟨_, _, _, _, hfail, _⟩ := reachable_schedInv h
  rw [hfail, (finished_harvested_perm h hfin).countP_eq]

theorem failingListFrom_eq_enumFrom (exitF : Nat → Int) (l : List TestCase) (i : Nat) :
    failingListFrom exitF i l
      = ((List.enumFrom i l).filter (fun p => !(exitF p.1 == 0))).map Prod.snd := by
  induction l generalizing i with
  | nil => simp [failingListFrom]
  | cons tc rest ih =>
    rw [failingListFrom, List.enumFrom_cons, List.filter_cons]
    by_cases h : exitF i = 0 <;> simp [h, ih]

theorem failingListPrinted_eq_enum (tests : List TestCase) (exitF : Nat → Int) :
    failingListPrinted tests exitF
      = ((tests.enum).filter (fun p => !(exitF p.1 == 0))).map Prod.snd := by
  rw [failingListPrinted, failingListFrom_eq_enumFrom, List.enum]

theorem failingListPrinted_length (tests : List TestCase) (exitF : Nat → Int) :
    (failingListPrinted tests exitF).length
      = (List.range tests.length).countP (fun i => !(exitF i == 0)) := by
  rw [failingListPrinted_eq_enum, List.length_map, ← List.countP_eq_length_filter,
    ← List.enum_map_fst tests, List.countP_map]
  rfl

/-! ## Duration-scan lemmas -/

theorem scanFrom_no_sep (lines : List String) (dur : Rat)
    (h : ∀ j, 1 ≤ j → containsSep ((lines.getD j "").data) = false) :
    ∀ i, scanFrom lines i dur = .ok dur := by
  intro i
  induction i with
  | zero => rfl
  | succ j ih =>
    rw [scanFrom, h (j + 1) (by omega)]
    simpa using ih

theorem noSepAfterHead_getD {lines : List String}
    (h : noSepAfterHead lines = true) (j : Nat) (hj : 1 ≤ j) :
    containsSep ((lines.getD j "").data) = false := by
  rw [List.getD_eq_getElem?_getD]
  have hdrop : lines[j]? = (lines.drop 1)[j - 1]? := by
    rw [List.getElem?_drop]
    congr 1
    omega
  rw [hdrop]
  cases hx : (lines.drop 1)[j - 1]? with
  | none => rfl
  | some x =>
    have hmem : x ∈ lines.drop 1 := List.getElem?_mem hx
    have := List.all_eq_true.mp h x hmem
    simpa using this

theorem scanFrom_skip (lines : List String) (target : Nat) (dur : Rat) :
    ∀ i, target ≤ i →
      (∀ j, target < j → containsSep ((lines.getD j "").data) = false) →
      scanFrom lines i dur = scanFrom lines target dur := by
  intro i
  induction i with
  | zero => intro hle _; rw [Nat.le_zero.mp hle]
  | succ j ih =>
    intro hle hns
    rcases Nat.lt_or_ge target (j + 1) with hlt | hge
    · rw [scanFrom, hns (j + 1) hlt]
      simpa using ih (by omega) hns
    · rw [Nat.le_antisymm hle hge]

theorem pyFloat_elapsed_line :
    pyFloat (takeUntilMarker ("0.123 s: elapsed\n".data)) = some (123 / 1000 : Rat) := by
  simp [pyFloat, takeUntilMarker, stripWs, parseUnsigned, natOfDigits, isPyWs]
  norm_num

theorem findDuration_last_sep (l₁ l₂ : List String) (sepLine : String)
    (hsep : containsSep sepLine.data = true) (hafter : noSepAll l₂ = true) :
    findDuration (l₁ ++ "0.123 s: elapsed\n" :: sepLine :: l₂) = .ok (123 / 1000 : Rat) := by
  set lines := l₁ ++ "0.123 s: elapsed\n" :: sepLine :: l₂ with hlines
  have hlen : lines.length = l₁.length + 2 + l₂.length := by
    simp [hlines]; omega
  have htarget : l₁.length + 1 < lines.length := by omega
  have hA : lines.getD (l₁.length + 1) "" = sepLine := by
    rw [List.getD_eq_getElem?_getD, hlines, List.getElem?_append_right (by omega)]
    simp
  have hB : lines.getD l₁.length "" = "0.123 s: elapsed\n" := by
    rw [List.getD_eq_getElem?_getD, hlines, List.getElem?_append_right (by omega)]
    simp
  have hC : ∀ j, l₁.length + 1 < j → containsSep ((lines.getD j "").data) = false := by
    intro j hj
    rw [List.getD_eq_getElem?_getD, hlines, List.getElem?_append_right (by omega)]
    have h2 : (("0.123 s: elapsed\n" :: sepLine :: l₂)[j - l₁.length]?) = l₂[j - l₁.length - 2]? := by
      match hm : j - l₁.length, (by omega : 2 ≤ j - l₁.length) with
      | m + 2, _ => simp
    rw [h2]
    cases hx : l₂[j - l₁.length - 2]? with
    | none => rfl
    | some x =>
      have hmem : x ∈ l₂ := List.getElem?_mem hx
      have := List.all_eq_true.mp hafter _ hmem
      simpa using this
  rw [findDuration]
  have hskip := scanFrom_skip lines (l₁.length + 1) (-1) (lines.length - 1) (by omega) hC
  rw [hskip, scanFrom, hA, hsep]
  rw [hB, pyFloat_elapsed_line]
  norm_num


theorem findDuration_last_sep_unparseable (l₁ l₂ : List String) (badLine sepLine : String)
    (hbad : pyFloat (takeUntilMarker badLine.data) = none)
    (hsep : containsSep sepLine.data = true) (hafter : noSepAll l₂ = true) :
    findDuration (l₁ ++ badLine :: sepLine :: l₂) = .error () := by
  set lines := l₁ ++ badLine :: sepLine :: l₂ with hlines
  have hlen : lines.length = l₁.length + 2 + l₂.length := by
    simp [hlines]; omega
  have htarget : l₁.length + 1 < lines.length := by omega
  have hA : lines.getD (l₁.length + 1) "" = sepLine := by
    rw [List.getD_eq_getElem?_getD, hlines, List.getElem?_append_right (by omega)]
    simp
  have hB : lines.getD l₁.length "" = badLine := by
    rw [List.getD_eq_getElem?_getD, hlines, List.getElem?_append_right (by omega)]
    simp
  have hC : ∀ j, l₁.length + 1 < j → containsSep ((lines.getD j "").data) = false := by
    intro j hj
    rw [List.getD_eq_getElem?_getD, hlines, List.getElem?_append_right (by omega)]
    have h2 : ((badLine :: sepLine :: l₂)[j - l₁.length]?) = l₂[j - l₁.length - 2]? := by
      match hm : j - l₁.length, (by omega : 2 ≤ j - l₁.length) with
      | m + 2, _ => simp
    rw [h2]
    cases hx : l₂[j - l₁.length - 2]? with
    | none => rfl
    | some x =>
      have hmem : x ∈ l₂ := List.getElem?_mem hx
      have := List.all_eq_true.mp hafter _ hmem
      simpa using this
  rw [findDuration]
  have hskip := scanFrom_skip lines (l₁.length + 1) (-1) (lines.length - 1) (by omega) hC
  rw [hskip, scanFrom, hA, hsep]
  rw [hB, hbad]
  rfl

/-! ## The claims -/

/-- C1: for every job limit `≥ 1` and every non-empty (possibly
repeated) run list, at every reachable instant of the scheduling loop
the number of concurrently running test processes is at most the job
limit. -/
theorem C1_running_set_bounded (maxJobs total : Nat) (exitF : Nat → Int)
    (hjobs : 1 ≤ maxJobs) (htotal : 0 < total) (s : SchedState)
    (hs : Reachable maxJobs total exitF s) :
    s.running.length ≤ maxJobs :=
  (reachable_schedInv hs).1

theorem C1_running_set_bounded_witness :
    1 ≤ 2 ∧ 0 < 3 ∧
      ({ initSched with nextIdx := 1, running := [0] } : SchedState).running.length ≤ 2 :=
  ⟨by decide, by decide,
    C1_running_set_bounded 2 3 exitZero (by decide) (by decide) _
      (Reachable.step Reachable.init (Step.spawn initSched (by decide) (by decide)))⟩

theorem trace_two_runs : Reachable 1 2 exitSecondFails doneTwoState := by
  have h0 : Reachable 1 2 exitSecondFails initSched := Reachable.init
  have h1 := Reachable.step h0 (Step.spawn initSched (by decide) (by decide))
  have h2 := Reachable.step h1
    (Step.harvestFull _ 0 (by decide) (by decide) (by decide))
  have h3 := Reachable.step h2 (Step.spawn _ (by decide) (by decide))
  have h4 := Reachable.step h3
    (Step.harvestDrain _ 0 (by decide) (by decide))
  exact h4

/-- C3: at session end (all occurrences spawned and drained), the ok
and failing counters sum to the total number of scheduled runs, and the
harvested positions are exactly the scheduled positions, each exactly
once. -/
theorem C3_counts_sum (maxJobs total : Nat) (exitF : Nat → Int) (s : SchedState)
    (hs : Reachable maxJobs total exitF s) (hfin : Finished total s) :
    s.okCount + s.failCount = total ∧ s.harvested.Perm (List.range total) := by
  have hperm := finished_harvested_perm hs hfin
  refine ⟨?_, hperm⟩
  obtain ⟨_, _, _, hok, hfail, _⟩ := reachable_schedInv hs
  rw [hok, hfail, countP_self_add_not, hperm.length_eq, List.length_range]

theorem C3_counts_sum_witness :
    doneTwoState.okCount + doneTwoState.failCount = 2 :=
  (C3_counts_sum 1 2 exitSecondFails _ trace_two_runs ⟨rfl, rfl⟩).1

/-- C8: at the end of every completed session, the scheduler's process
exit status (`sys.exit(failing_count > 0)`) is 0 exactly when no run
failed, equivalently when every scheduled run exited with status 0, and
is 1 as soon as at least one run exited non-zero. -/
theorem C8_exit_status (maxJobs total : Nat) (exitF : Nat → Int) (s : SchedState)
    (hs : Reachable maxJobs total exitF s) (hfin : Finished total s) :
    (sessionExitCode s.failCount = 0 ↔ s.failCount = 0) ∧
    (s.failCount = 0 ↔ ∀ i, i < total → exitF i = 0) ∧
    (0 < s.failCount → sessionExitCode s.failCount = 1) := by
  have hfail := finished_failCount hs hfin
  refine ⟨?_, ?_, ?_⟩
  · constructor
    · intro h
      by_contra hne
      have : sessionExitCode s.failCount = 1 := by
        rw [sessionExitCode, if_pos (Nat.pos_of_ne_zero hne)]
      omega
    · intro h
      rw [sessionExitCode, h]
      decide
  · rw [hfail, List.countP_eq_zero]
    constructor
    · intro h i hi
      have := h i (List.mem_range.mpr hi)
      simpa using this
    · intro h x hx
      simp [h x (List.mem_range.mp hx)]
  · intro h
    rw [sessionExitCode, if_pos h]

theorem C8_exit_status_witness :
    (sessionExitCode doneTwoState.failCount = 0 ↔ doneTwoState.failCount = 0) ∧
    (doneTwoState.failCount = 0 ↔ ∀ i, i < 2 → exitSecondFails i = 0) ∧
    (0 < doneTwoState.failCount → sessionExitCode doneTwoState.failCount = 1) :=
  C8_exit_status 1 2 exitSecondFails _ trace_two_runs ⟨rfl, rfl⟩

/-- C5: at every completed session, the failing list printed at the end
is exactly the identifiers of the occurrences whose exit status was
non-zero, in original discovery (plus repeat) order — the enum-filter
of the expanded list — independently of the order in which runs were
harvested, and the failing counter agrees with its length (its
non-emptiness decides whether the list is printed at all). -/
theorem C5_failing_list_order (maxJobs : Nat) (tests : List TestCase)
    (exitF : Nat → Int) (s : SchedState)
    (hs : Reachable maxJobs tests.length exitF s)
    (hfin : Finished tests.length s) :
    failingListPrinted tests exitF
      = ((tests.enum).filter (fun p => !(exitF p.1 == 0))).map Prod.snd ∧
    s.failCount = (failingListPrinted tests exitF).length ∧
    (0 < s.failCount ↔ failingListPrinted tests exitF ≠ []) := by
  have hlen := failingListPrinted_length tests exitF
  have hfail := finished_failCount hs hfin
  refine ⟨failingListPrinted_eq_enum tests exitF, ?_, ?_⟩
  · rw [hfail, hlen]
  · rw [hfail, ← hlen, List.length_pos_iff_ne_nil]

theorem C5_failing_list_order_witness :
    failingListPrinted [TestCase.mk "a" "[x]", TestCase.mk "b" "[y]"] exitSecondFails
      = ((([TestCase.mk "a" "[x]", TestCase.mk "b" "[y]"]).enum).filter
          (fun p => !(exitSecondFails p.1 == 0))).map Prod.snd ∧
    doneTwoState.failCount
      = (failingListPrinted [TestCase.mk "a" "[x]", TestCase.mk "b" "[y]"] exitSecondFails).length ∧
    (0 < doneTwoState.failCount ↔
      failingListPrinted [TestCase.mk "a" "[x]", TestCase.mk "b" "[y]"] exitSecondFails ≠ []) :=
  C5_failing_list_order 1 [TestCase.mk "a" "[x]", TestCase.mk "b" "[y]"]
    exitSecondFails _ trace_two_runs ⟨rfl, rfl⟩

theorem repeatTests_length (n : Nat) (l : List TestCase) :
    (repeatTests n l).length = n * l.length := by
  induction n with
  | zero => simp [repeatTests]
  | succ m ih =>
    rw [repeatTests, List.length_append, ih, Nat.succ_mul]
    omega

theorem repeatTests_eq_join (n : Nat) (l : List TestCase) :
    repeatTests n l = (List.replicate n l).flatten := by
  induction n with
  | zero => rfl
  | succ m ih => rw [repeatTests, List.replicate_succ, List.flatten_cons, ih]

theorem repeatTests_count (n : Nat) (l : List TestCase) (tc : TestCase) :
    (repeatTests n l).count tc = n * l.count tc := by
  induction n with
  | zero => simp [repeatTests]
  | succ m ih =>
    rw [repeatTests, List.count_append, ih, Nat.succ_mul]
    omega

theorem failingListFrom_all_fail (exitF : Nat → Int) (hfail : ∀ i, ¬ exitF i = 0) :
    ∀ (i : Nat) (l : List TestCase), failingListFrom exitF i l = l := by
  intro i l
  induction l generalizing i with
  | nil => rfl
  | cons tc rest ih => rw [failingListFrom, if_neg (hfail i), ih]

/-- C4: for every repeat factor `R ≥ 1` and discovered catalog, the
expanded run list is `R` sequential full copies of the catalog in
discovery order, has exactly `R × N` entries, each entry an independent
occurrence, so a test whose every run fails appears in the final
failing list exactly `R` times as often as in the catalog — never
deduplicated. -/
theorem C4_repeat_expansion (r : Nat) (cat : List TestCase) (hr : 1 ≤ r) :
    (repeatTests r cat).length = r * cat.length ∧
    repeatTests r cat = (List.replicate r cat).flatten ∧
    (∀ tc : TestCase, (repeatTests r cat).count tc = r * cat.count tc) ∧
    (∀ (exitF : Nat → Int) (tc : TestCase), (∀ i, ¬ exitF i = 0) →
      (failingListPrinted (repeatTests r cat) exitF).count tc = r * cat.count tc) := by
  refine ⟨repeatTests_length r cat, repeatTests_eq_join r cat,
    fun tc => repeatTests_count r cat tc, ?_⟩
  intro exitF tc hfail
  rw [failingListPrinted, failingListFrom_all_fail exitF hfail, repeatTests_count]

theorem C4_repeat_expansion_witness :
    (repeatTests 2 [TestCase.mk "a" "[x]", TestCase.mk "b" "[y]"]).length = 2 * 2 ∧
    (repeatTests 2 [TestCase.mk "a" "[x]", TestCase.mk "b" "[y]"]).count (TestCase.mk "a" "[x]") = 2 * 1 ∧
    (failingListPrinted (repeatTests 2 [TestCase.mk "a" "[x]", TestCase.mk "b" "[y]"])
        (fun _ => 1)).count (TestCase.mk "a" "[x]") = 2 * 1 := by
  have h := C4_repeat_expansion 2 [TestCase.mk "a" "[x]", TestCase.mk "b" "[y]"] (by decide)
  refine ⟨?_, ?_, ?_⟩
  · have := h.1
    simpa using this
  · have := h.2.2.1 (TestCase.mk "a" "[x]")
    simpa using this
  · have := h.2.2.2 (fun _ => 1) (TestCase.mk "a" "[x]") (fun i => by norm_num)
    simpa using this

theorem repeatTests_nil (n : Nat) : repeatTests n [] = [] := by
  induction n with
  | zero => rfl
  | succ m ih => rw [repeatTests, ih]; rfl

/-- C7: when discovery yields zero test cases, the prelude performs
the discovery invocation and then exits through `sys.exit` with the
no-match message and status 1; no test process is spawned. -/
theorem C7_zero_matches (cfg : Config)
    (hnqv : ¬ (cfg.quiet && cfg.verbose) = true) :
    preludePhase cfg []
      = ([Effect.discover],
         PreludeOut.exitMsg ("No matching test cases for \"" ++ cfg.testFilter ++ "\"")) ∧
    preludeExitCode (preludePhase cfg []).2 = some 1 ∧
    ∀ i, Effect.spawn i ∉ (preludePhase cfg []).1 := by
  have h : preludePhase cfg []
      = ([Effect.discover],
         PreludeOut.exitMsg ("No matching test cases for \"" ++ cfg.testFilter ++ "\"")) := by
    rw [preludePhase, if_neg hnqv]
    simp [repeatTests_nil]
  refine ⟨h, ?_, ?_⟩
  · rw [h]; rfl
  · intro i
    rw [h]
    simp

theorem C7_zero_matches_witness :
    preludePhase (Config.mk "slow" false false 1) []
      = ([Effect.discover], PreludeOut.exitMsg "No matching test cases for \"slow\"") ∧
    preludeExitCode (preludePhase (Config.mk "slow" false false 1) []).2 = some 1 ∧
    ∀ i, Effect.spawn i ∉ (preludePhase (Config.mk "slow" false false 1) []).1 :=
  C7_zero_matches (Config.mk "slow" false false 1) (by decide)

/-- C9: when both the quiet and the verbose flag are set, `run_tests`
exits at once through `sys.exit` with the exact message
`Can not be both quiet and verbose at the same time.` and status 1,
without having invoked the test binary for discovery and without
spawning any test process. -/
theorem C9_quiet_verbose (cfg : Config) (discovered : List TestCase)
    (hq : cfg.quiet = true) (hv : cfg.verbose = true) :
    preludePhase cfg discovered
      = ([], PreludeOut.exitMsg "Can not be both quiet and verbose at the same time.") ∧
    preludeExitCode (preludePhase cfg discovered).2 = some 1 ∧
    Effect.discover ∉ (preludePhase cfg discovered).1 ∧
    ∀ i, Effect.spawn i ∉ (preludePhase cfg discovered).1 := by
  have h : preludePhase cfg discovered
      = ([], PreludeOut.exitMsg "Can not be both quiet and verbose at the same time.") := by
    rw [preludePhase, if_pos (by rw [hq, hv]; rfl)]
  refine ⟨h, by rw [h]; rfl, by rw [h]; simp, fun i => by rw [h]; simp⟩

theorem C9_quiet_verbose_witness :
    preludePhase (Config.mk "" true true 1) [TestCase.mk "a" "[x]"]
      = ([], PreludeOut.exitMsg "Can not be both quiet and verbose at the same time.") ∧
    preludeExitCode (preludePhase (Config.mk "" true true 1) [TestCase.mk "a" "[x]"]).2 = some 1 ∧
    Effect.discover ∉ (preludePhase (Config.mk "" true true 1) [TestCase.mk "a" "[x]"]).1 ∧
    ∀ i, Effect.spawn i ∉ (preludePhase (Config.mk "" true true 1) [TestCase.mk "a" "[x]"]).1 :=
  C9_quiet_verbose (Config.mk "" true true 1) [TestCase.mk "a" "[x]"] rfl rfl

/-- C10: a repeat factor `≤ 0` empties the expanded run list
(`range(repeat)` is empty), so even with a non-empty discovered catalog
the prelude takes the zero-match exit: the no-match message, status 1,
and no test process spawned. -/
theorem C10_nonpositive_repeat (cfg : Config) (discovered : List TestCase)
    (hrep : cfg.rep ≤ 0) (hne : ¬ discovered = [])
    (hnqv : ¬ (cfg.quiet && cfg.verbose) = true) :
    preludePhase cfg discovered
      = ([Effect.discover],
         PreludeOut.exitMsg ("No matching test cases for \"" ++ cfg.testFilter ++ "\"")) ∧
    preludeExitCode (preludePhase cfg discovered).2 = some 1 ∧
    ∀ i, Effect.spawn i ∉ (preludePhase cfg discovered).1 := by
  have hz : cfg.rep.toNat = 0 := Int.toNat_of_nonpos hrep
  have h : preludePhase cfg discovered
      = ([Effect.discover],
         PreludeOut.exitMsg ("No matching test cases for \"" ++ cfg.testFilter ++ "\"")) := by
    rw [preludePhase, if_neg hnqv]
    simp [hz, repeatTests]
  refine ⟨h, by rw [h]; rfl, fun i => by rw [h]; simp⟩

theorem C10_nonpositive_repeat_witness :
    preludePhase (Config.mk "f" false false 0) [TestCase.mk "a" "[x]"]
      = ([Effect.discover], PreludeOut.exitMsg "No matching test cases for \"f\"") ∧
    preludeExitCode (preludePhase (Config.mk "f" false false 0) [TestCase.mk "a" "[x]"]).2 = some 1 ∧
    ∀ i, Effect.spawn i ∉ (preludePhase (Config.mk "f" false false 0) [TestCase.mk "a" "[x]"]).1 :=
  C10_nonpositive_repeat (Config.mk "f" false false 0) [TestCase.mk "a" "[x]"]
    (by decide) (by decide) (by decide)

theorem noSepAfterHead_of_noSepAll {lines : List String}
    (h : noSepAll lines = true) : noSepAfterHead lines = true := by
  rw [noSepAfterHead, List.all_eq_true]
  intro s hs
  exact List.all_eq_true.mp h s (List.mem_of_mem_drop hs)

/-- C2 counterexample: on the captured output `["hello\n", "=====\n"]`
a separator line is found at index 1 but the preceding line has no
parseable numeric prefix; `float("hello\n")` raises `ValueError`
(modelled `Except.error ()`), so the parse does NOT report the sentinel
-1 and does abort — refuting the claim at this input. -/
theorem C2_counterexample :
    containsSep ("=====\n").data = true ∧
    findDuration ["hello\n", "=====\n"] = Except.error () ∧
    ¬ findDuration ["hello\n", "=====\n"] = Except.ok (-1 : Rat) := by
  have h : findDuration ["hello\n", "=====\n"] = Except.error () := by
    simp [findDuration, scanFrom, containsSep, takeUntilMarker, pyFloat,
      stripWs, parseUnsigned, natOfDigits, isPyWs]
  refine ⟨rfl, h, ?_⟩
  rw [h]
  simp

/-- C2 (amended): for every captured output in which the line
immediately preceding the LAST separator line has no parseable numeric
prefix (before `" s:"`), the backward scan reaches that separator and
`float` raises an uncaught `ValueError`, aborting the parse and the
session; the sentinel -1 is reported, without raising, whenever the
captured output contains no separator line at all. -/
theorem C2_duration_parse_behavior :
    (∀ (l₁ l₂ : List String) (badLine sepLine : String),
      pyFloat (takeUntilMarker badLine.data) = none →
      containsSep sepLine.data = true → noSepAll l₂ = true →
      findDuration (l₁ ++ badLine :: sepLine :: l₂) = Except.error ()) ∧
    (∀ lines : List String, noSepAll lines = true →
      findDuration lines = Except.ok (-1 : Rat)) := by
  constructor
  · exact findDuration_last_sep_unparseable
  · intro lines h
    exact scanFrom_no_sep lines (-1)
      (fun j hj => noSepAfterHead_getD (noSepAfterHead_of_noSepAll h) j hj) _

theorem C2_duration_parse_behavior_witness :
    pyFloat (takeUntilMarker ("hello\n".data)) = none ∧
    containsSep ("=====\n").data = true ∧
    noSepAll ([] : List String) = true ∧
    findDuration ["hello\n", "=====\n"] = Except.error () ∧
    noSepAll ["tests passed\n"] = true ∧
    findDuration ["tests passed\n"] = Except.ok (-1 : Rat) :=
  ⟨by decide, by decide, by decide,
    C2_duration_parse_behavior.1 [] [] "hello\n" "=====\n" (by decide) (by decide) (by decide),
    by decide,
    C2_duration_parse_behavior.2 ["tests passed\n"] (by decide)⟩

/-- C6 counterexample: the captured output
`["0.123 s: elapsed\n", "=====\n", "9.9 s: x\n", "====="]` contains the
line `0.123 s: elapsed` immediately followed by a row of `=`
characters, yet the backward scan meets the LAST separator block first
and extracts 9.9, not 0.123 — refuting the universally quantified
claim at this input. -/
theorem C6_counterexample :
    containsSep ("=====\n").data = true ∧
    findDuration ["0.123 s: elapsed\n", "=====\n", "9.9 s: x\n", "====="]
      = Except.ok (99 / 10 : Rat) ∧
    ¬ findDuration ["0.123 s: elapsed\n", "=====\n", "9.9 s: x\n", "====="]
      = Except.ok (123 / 1000 : Rat) := by
  have h : findDuration ["0.123 s: elapsed\n", "=====\n", "9.9 s: x\n", "====="]
      = Except.ok (99 / 10 : Rat) := by
    simp [findDuration, scanFrom, containsSep, takeUntilMarker, pyFloat,
      stripWs, parseUnsigned, natOfDigits, isPyWs]
    norm_num
  refine ⟨rfl, h, ?_⟩
  rw [h]
  simp
  norm_num

/-- C6 (amended): when the line `0.123 s: elapsed` immediately
precedes the LAST separator line of the captured output (no later line
contains `=====`), the backward scan extracts 0.123; and when the
captured output contains no separator line at all, the reported
duration is the sentinel -1. -/
theorem C6_duration_extraction :
    (∀ (l₁ l₂ : List String) (sepLine : String),
      containsSep sepLine.data = true → noSepAll l₂ = true →
      findDuration (l₁ ++ "0.123 s: elapsed\n" :: sepLine :: l₂)
        = Except.ok (123 / 1000 : Rat)) ∧
    (∀ lines : List String, noSepAll lines = true →
      findDuration lines = Except.ok (-1 : Rat)) := by
  constructor
  · exact findDuration_last_sep
  · intro lines h
    exact scanFrom_no_sep lines (-1)
      (fun j hj => noSepAfterHead_getD (noSepAfterHead_of_noSepAll h) j hj) _

theorem C6_duration_extraction_witness :
    containsSep ("=====\n").data = true ∧
    noSepAll ([] : List String) = true ∧
    findDuration ["0.123 s: elapsed\n", "=====\n"] = Except.ok (123 / 1000 : Rat) ∧
    noSepAll ["all ok\n"] = true ∧
    findDuration ["all ok\n"] = Except.ok (-1 : Rat) :=
  ⟨by decide, by decide,
    C6_duration_extraction.1 [] [] "=====\n" (by decide) (by decide),
    by decide,
    C6_duration_extraction.2 ["all ok\n"] (by decide)⟩
